import Mathlib

/-!
Shallow embedding of the Deco 2 factory-composition engine (src/index.js).

Objects are modelled as tables of own properties (key, enumerable flag,
primitive value).  The external dependency `copy-properties` is modelled as a
shallow own-property merge that processes the enumerable own properties of each
source, later sources winning per key; `Reflect.defineProperty` writes a
property with the flags given.  The private per-factory store (the external
`bursary` dependency) is modelled by carrying the constructors list and the
defaults table as fields of the factory record.  Initializer functions are
modelled as Lean functions from the current receiver and the parameter list to
a returned value.
-/

/-- Primitive JavaScript values appearing in properties: `undefined`, strings,
numbers, and abstract references to functions and to factories (reference
identity is what `===` compares for them). -/
inductive Prim where
  | undef : Prim
  | str : String → Prim
  | num : Nat → Prim
  | fnRef : Nat → Prim
  | facRef : Nat → Prim
  deriving DecidableEq, Repr

/-- One own property of a JavaScript object: key, enumerable flag, value. -/
structure JProp where
  key : String
  enum : Bool
  val : Prim
  deriving DecidableEq, Repr

/-- A table of own properties, in insertion order (keys are unique in any
table produced from a JavaScript object). -/
abbrev Table := List JProp

/-- A plain JavaScript object, identified with its own-property table. -/
structure JObj where
  props : Table
  deriving DecidableEq, Repr

/-- A JavaScript value as passed in a parameter list: a primitive or an
object. -/
inductive JVal where
  | prim : Prim → JVal
  | obj : JObj → JVal
  deriving DecidableEq, Repr

/-- The value returned by an initializer: `undefined` or an object (the two
return shapes the construction pipeline distinguishes, src/index.js lines
97-101). -/
inductive Ret where
  | undef : Ret
  | obj : JObj → Ret
  deriving DecidableEq, Repr

/-- An initializer: applied to the current receiver and the call parameters
(`ƒ.apply(o, parameters)`, src/index.js line 97). -/
abbrev Initializer := JObj → List JVal → Ret

/-- Property write: overwrite the slot holding the key in place, or append a
new property at the end (tables coming from JavaScript objects have unique
keys). -/
def setOwn : Table → JProp → Table
  | [], p => [p]
  | q :: t, p => if q.key == p.key then p :: t else q :: setOwn t p

/-- Write a list of properties into a table, one after the other (the shape of
`Reflect.defineProperty` loops, src/index.js lines 120-136). -/
def assignList (t : Table) (ps : List JProp) : Table :=
  ps.foldl setOwn t

/-- `Assign(target, source)` of the external copy-properties dependency,
modelled as copying the enumerable own properties of the source into the
target, the source winning per key. -/
def assignT (t s : Table) : Table :=
  assignList t (s.filter fun p => p.enum)

/-- `Copy(...sources)` of the external copy-properties dependency: merge the
sources into a fresh table, later sources winning per key. -/
def copyT (ss : List Table) : Table :=
  ss.foldl assignT []

/-- `Assign(object, table)` where the target is an object. -/
def assignObj (o : JObj) (s : Table) : JObj :=
  ⟨assignT o.props s⟩

/-- Property read on a table: the value in the slot holding the key. -/
def lookupT : Table → String → Option Prim
  | [], _ => none
  | p :: t, k => if p.key == k then some p.val else lookupT t k

/-- Whether a table holds the key at all (any enumerability). -/
def hasKey (t : Table) (k : String) : Bool :=
  t.any fun p => p.key == k

/-- A prototype object together with its single-parent ancestry, as walked by
`Reflect.getPrototypeOf` (src/index.js lines 17-20). -/
inductive Proto where
  | nil : Proto
  | node : Table → Proto → Proto

/-- `chain` (src/index.js lines 17-20): the list of prototype objects from the
most specific to the most ancestral; an absent prototype yields the empty
list. -/
def chain : Proto → List Table
  | .nil => []
  | .node own parent => own :: chain parent

/-- `flatten` (src/index.js line 22): `Copy(...chain(prototype).reverse())`,
one merged table built from the most ancestral template to the most
specific. -/
def flatten (p : Proto) : Table :=
  copyT (chain p).reverse

/-- `flatten` applied to a possibly absent prototype (`chain` of a falsy value
is empty, so the merge of nothing is the empty table). -/
def flattenOpt : Option Proto → Table
  | none => []
  | some p => flatten p

/-- A value sitting in the constructors list: a function (carrying the
`isClassWrapper` tag when produced from a class), some other truthy value, or
a falsy value (dropped by the `.filter((a) => a)` at src/index.js line 65). -/
inductive CtorVal where
  | fn : Bool → Initializer → CtorVal
  | truthy : Prim → CtorVal
  | falsy : CtorVal

/-- JavaScript truthiness of a constructors-list entry. -/
def CtorVal.isTruthy : CtorVal → Bool
  | .fn _ _ => true
  | .truthy _ => true
  | .falsy => false

/-- One decorator value, recorded through the observations the classifier
makes of it (src/index.js lines 51-64): the own `constructor` entry if any,
whether it is a function, whether it is a class, its `prototype` (absent when
falsy), the value `prototype.constructor` resolves to, the function itself as
an initializer, `Reflect.construct` behavior for classes, the own `defaults`
entry if any, and its own property table (object decorators). -/
structure Decorator where
  ownCtor : Option CtorVal := none
  isFunc : Bool := false
  isCls : Bool := false
  protoObj : Option Proto := none
  protoCtor : CtorVal := .falsy
  selfInit : Initializer := fun _ _ => .undef
  construct : List JVal → JObj := fun _ => ⟨[]⟩
  ownDefaults : Option Table := none
  ownProps : Table := []

/-- The initializer extraction of `concatenateConstructors` (src/index.js
lines 51-64): an own `constructor` entry wins; else an ordinary non-class
function yields itself when it has no prototype and otherwise the value its
`prototype.constructor` resolves to; else a class yields a tagged wrapper that
performs `Reflect.construct` with the call parameters; anything else yields a
falsy value. -/
def classify (d : Decorator) : CtorVal :=
  match d.ownCtor with
  | some v => v
  | none =>
    if d.isFunc && !d.isCls then
      match d.protoObj with
      | none => .fn false d.selfInit
      | some _ => d.protoCtor
    else if d.isCls then
      .fn true fun _o params => .obj (d.construct params)
    else
      .falsy

/-- `concatenateConstructors` (src/index.js lines 49-66): push the classified
initializers of the decorators, dropping the falsy ones, onto the end of the
stored list. -/
def concatenateConstructors (cs : List CtorVal) (ds : List Decorator) : List CtorVal :=
  cs ++ (ds.map classify).filter CtorVal.isTruthy

/-- `concatenateDefaults` (src/index.js lines 68-75): merge the own `defaults`
entry of each decorator, when present, into the stored defaults table. -/
def concatenateDefaults (t : Table) (ds : List Decorator) : Table :=
  ds.foldl (fun acc d =>
    match d.ownDefaults with
    | some s => assignT acc s
    | none => acc) t

/-- `concatenatePrototypes` (src/index.js lines 77-80): merge, per decorator,
the flattened prototype chain for functions and the own property table for
other values, into the factory method table. -/
def concatenatePrototypes (t : Table) (ds : List Decorator) : Table :=
  ds.foldl (fun acc d =>
    assignT acc (if d.isFunc then flattenOpt d.protoObj else d.ownProps)) t

/-- A built factory: the hidden constructors list and defaults table (the
bursary store), the method table `factory.prototype`, and the own statics
installed on the factory function itself. -/
structure Fac where
  ctors : List CtorVal
  defaults : Table
  proto : Table
  statics : Table

/-- `concatenate` (src/index.js lines 83-87): update the three per-factory
tables from the decorator list. -/
def concatenate (f : Fac) (ds : List Decorator) : Fac :=
  { f with
    ctors := concatenateConstructors f.ctors ds,
    defaults := concatenateDefaults f.defaults ds,
    proto := concatenatePrototypes f.proto ds }

/-- The two members installed on every factory method table (src/index.js
lines 90-108 and 120-127): `constructor` and `defaults`, both defined with
`enumerable: false`.  Their function values are abstract references. -/
def members : Table :=
  [⟨"constructor", false, .fnRef 0⟩, ⟨"defaults", false, .fnRef 1⟩]

/-- The statics installed on the factory function itself (src/index.js lines
111-117 and 129-136): only `defaults`, defined with `enumerable: false`. -/
def staticMembers : Table :=
  [⟨"defaults", false, .fnRef 2⟩]

/-- The `initialize` step (src/index.js lines 89-137): define the members on
the method table and the statics on the factory. -/
def initializeFac (f : Fac) : Fac :=
  { f with
    proto := assignList f.proto members,
    statics := assignList f.statics staticMembers }

/-- The `defaults` member of the method table (src/index.js lines 105-107):
`Copy(secrets(factory).defaults, ...updates)` — a fresh merged table; the
stored table is not written. -/
def memberDefaults (f : Fac) (updates : List Table) : Table :=
  copyT (f.defaults :: updates)

/-- `Deco(...decorators)` (src/index.js lines 145-180): start from empty
hidden tables and an empty method table, install the members and statics, then
apply the given decorators. -/
def DecoBuild (ds : List Decorator) : Fac :=
  concatenate (initializeFac { ctors := [], defaults := [], proto := [], statics := [] }) ds

/-- `factoryConstructor` (src/index.js lines 91-104): reduce the stored
constructors over the receiver; an `undefined` return keeps the accumulator,
a return identical to the accumulator keeps it, and any other returned value
gets the method table assigned onto it and becomes the accumulator. -/
def factoryConstructor (proto : Table) (ctors : List Initializer)
    (params : List JVal) (this0 : JObj) : JObj :=
  ctors.foldl (fun o f =>
    match f o params with
    | .undef => o
    | .obj next => if next = o then o else assignObj next proto) this0

/-- The receiver check of the factory (src/index.js lines 158-160): whether
some own key of the receiver holds the factory itself. -/
def holdsFactory (o : JObj) (facId : Nat) : Bool :=
  o.props.any fun p => p.val == Prim.facRef facId

/-- The factory function (src/index.js lines 147-168): with no receiver, or
with a receiver holding the factory under some own key, construct a fresh
instance; otherwise assign the method table onto the receiver and run the
constructor chain from it. -/
def factoryCall (facId : Nat) (proto : Table) (ctors : List Initializer)
    (receiver : Option JObj) (params : List JVal) : JObj :=
  match receiver with
  | none => factoryConstructor proto ctors params ⟨[]⟩
  | some r =>
    if holdsFactory r facId then factoryConstructor proto ctors params ⟨[]⟩
    else factoryConstructor proto ctors params (assignObj r proto)

/-- The pipeline as the amended claim C1 states it: a left fold threading the
receiver, written out as explicit recursion over the registration order. -/
def pipelineFold (proto : Table) (params : List JVal) : List Initializer → JObj → JObj
  | [], o => o
  | f :: fs, o =>
    match f o params with
    | .undef => pipelineFold proto params fs o
    | .obj next =>
      if next = o then pipelineFold proto params fs o
      else pipelineFold proto params fs (assignObj next proto)

/-- The pipeline as claim C1 is stated: an overriding return value becomes the
new OPTIONS value for all subsequent initializers, that is, it replaces the
first call parameter seen by the rest of the chain (with the method table
applied to it). -/
def pipelineOptionsClaim (proto : Table) : List Initializer → List JVal → JObj → JObj
  | [], _, o => o
  | f :: fs, params, o =>
    match f o params with
    | .undef => pipelineOptionsClaim proto fs params o
    | .obj next =>
      if next = o then pipelineOptionsClaim proto fs params o
      else pipelineOptionsClaim proto fs
        (JVal.obj (assignObj next proto) :: params.tail) (assignObj next proto)

/-- Method resolution through the live prototype chain, as claim C7 describes
the contract: the most specific template is consulted first, walking towards
the most ancestral, over the entries the merge processes (the enumerable
ones). -/
def chainResolveClaim : Proto → String → Option Prim
  | .nil, _ => none
  | .node own parent, k =>
    match lookupT (own.filter fun p => p.enum) k with
    | some v => some v
    | none => chainResolveClaim parent k

/-- Well-formedness of a prototype chain: every level has unique keys, as any
chain of JavaScript objects does. -/
def wfProto : Proto → Prop
  | .nil => True
  | .node own parent => (own.map fun p => p.key).Nodup ∧ wfProto parent

/-- An initializer that returns nothing (the `undefined` return). -/
def undefInit : Initializer := fun _ _ => Ret.undef

/-- An initializer that returns a fresh object carrying a `tag` field. -/
def tagInit : Initializer := fun _ _ => .obj ⟨[⟨"tag", true, .num 1⟩]⟩

/-- An initializer that records, on a fresh object extending the receiver,
whether its first parameter (the options argument) is an object. -/
def optProbeInit : Initializer := fun o params =>
  .obj ⟨o.props ++ [⟨"optIsObject", true,
    match params.head? with
    | some (.obj _) => .str "yes"
    | _ => .str "no"⟩]⟩

/-- An initializer that records how many arguments it received and what its
second argument was. -/
def argProbe : Initializer := fun _ params =>
  .obj ⟨[⟨"argCount", true, .num params.length⟩,
         ⟨"secondArg", true,
           match params.get? 1 with
           | some (.obj _) => .str "object"
           | some (.prim p) => p
           | none => .undef⟩]⟩

/-- An initializer that returns a fresh object unrelated to the receiver. -/
def freshInit : Initializer := fun _ _ => .obj ⟨[⟨"fresh", true, .num 7⟩]⟩

/-- A plain function decorator wrapping `argProbe` (an ordinary function with
no prototype object, like an arrow function). -/
def argProbeDec : Decorator := { isFunc := true, selfInit := argProbe }

/-- The array `['barron von beluga']` supplied as a decorator: not a function,
no own `constructor` or `defaults` entry; its own properties are the
enumerable index entry and the non-enumerable `length`. -/
def badArrayDec : Decorator :=
  { ownProps := [⟨"0", true, .str "barron von beluga"⟩, ⟨"length", false, .num 1⟩] }

/-- An object decorator exposing an own `constructor` entry holding a truthy
non-function value. -/
def ownCtorDec : Decorator := { ownCtor := some (.truthy (.num 3)) }

/-- A pure data-bag object decorator: no own `constructor` entry, not a
function, not a class. -/
def plainObjDec : Decorator := { ownProps := [⟨"genre", true, .str "reggae"⟩] }

/-- A receiver that does not hold the factory under any own key. -/
def receiverEx : JObj := ⟨[⟨"mine", true, .num 1⟩]⟩

/-- A receiver holding the factory with id 0 under an own key. -/
def receiverHold : JObj := ⟨[⟨"Factory", true, .facRef 0⟩]⟩

/-- A defaults fragment. -/
def genreDefaults : Table := [⟨"genre", true, .str "reggae"⟩]

/-- A two-level prototype chain where the specific level overrides `greet` of
the ancestral level. -/
def protoEx : Proto :=
  .node [⟨"greet", true, .str "hi"⟩]
    (.node [⟨"greet", true, .str "yo"⟩, ⟨"base", true, .num 1⟩] .nil)

theorem factoryConstructor_cons (proto : Table) (f : Initializer) (fs : List Initializer)
    (params : List JVal) (o0 : JObj) :
    factoryConstructor proto (f :: fs) params o0 =
      factoryConstructor proto fs params
        (match f o0 params with
         | .undef => o0
         | .obj next => if next = o0 then o0 else assignObj next proto) := rfl

theorem factoryConstructor_eq_pipelineFold (proto : Table) (params : List JVal) :
    ∀ (ctors : List Initializer) (o0 : JObj),
      factoryConstructor proto ctors params o0 = pipelineFold proto params ctors o0 := by
  intro ctors
  induction ctors with
  | nil => intro o0; rfl
  | cons f fs ih =>
    intro o0
    rw [factoryConstructor_cons]
    cases hf : f o0 params with
    | undef => simp [pipelineFold, hf, ih]
    | obj next =>
      by_cases hn : next = o0
      · simp [pipelineFold, hf, hn, ih]
      · simp [pipelineFold, hf, hn, ih]

theorem factoryConstructor_undef_id (proto : Table) (params : List JVal) :
    ∀ ctors : List Initializer, (∀ f, f ∈ ctors → ∀ o, f o params = Ret.undef) →
      ∀ o0 : JObj, factoryConstructor proto ctors params o0 = o0 := by
  intro ctors
  induction ctors with
  | nil => intro _ o0; rfl
  | cons f fs ih =>
    intro h o0
    rw [factoryConstructor_cons, h f (List.mem_cons_self f fs) o0]
    exact ih (fun g hg => h g (List.mem_cons_of_mem f hg)) o0

/-- Claim C1, counterexample: the claim reads the overriding return value as
the new options value for the rest of the chain, but the code threads it as
the receiver only and passes the caller parameters unchanged to every
initializer, so the two pipelines disagree on a concrete two-initializer
factory called with the string `ping`. -/
theorem claim_C1_counterexample :
    factoryConstructor [] [tagInit, optProbeInit] [JVal.prim (Prim.str "ping")] ⟨[]⟩ ≠
      pipelineOptionsClaim [] [tagInit, optProbeInit] [JVal.prim (Prim.str "ping")] ⟨[]⟩ := by
  decide

/-- Claim C1, amended: the instance-construction pipeline is a left fold over
the registered initializer list in registration order, starting from the
receiver; an `undefined` return and a return identical to the accumulator
leave it unchanged; any other returned value has the method table applied to
it and becomes the accumulator (the receiver seen by subsequent initializers,
whose parameters stay the callers), and the final accumulator is the value the
factory call returns. -/
theorem claim_C1_pipeline :
    ∀ (facId : Nat) (proto : Table) (ctors : List Initializer) (params : List JVal) (o0 : JObj),
      factoryConstructor proto ctors params o0 = pipelineFold proto params ctors o0 ∧
      factoryCall facId proto ctors none params = pipelineFold proto params ctors ⟨[]⟩ :=
  fun _facId proto ctors params o0 =>
    ⟨factoryConstructor_eq_pipelineFold proto params ctors o0,
     factoryConstructor_eq_pipelineFold proto params ctors ⟨[]⟩⟩

/-- Claim C2: evaluating the code at the failing input.  A factory built from
a single probing initializer and called with the one argument `ping` hands the
initializer exactly the caller parameter list: it sees one argument and its
second argument is `undefined`, not a freshly allocated scratch object. -/
theorem claim_C2_no_protected_argument :
    (DecoBuild [argProbeDec]).ctors = [CtorVal.fn false argProbe] ∧
    factoryCall 0 (DecoBuild [argProbeDec]).proto [argProbe] none [JVal.prim (Prim.str "ping")] =
      ⟨[⟨"argCount", true, Prim.num 1⟩, ⟨"secondArg", true, Prim.undef⟩]⟩ :=
  ⟨rfl, by decide⟩

/-- Claim C3: evaluating the code at the failing input.  Composing the array
`['barron von beluga']` raises no error: the array contributes no initializer,
yet its enumerable element is merged into the factory method table, so the
tables are not left unchanged. -/
theorem claim_C3_nonfunction_accepted :
    (DecoBuild [badArrayDec]).ctors = ([] : List CtorVal) ∧
    lookupT (DecoBuild [badArrayDec]).proto "0" = some (Prim.str "barron von beluga") ∧
    (DecoBuild [badArrayDec]).defaults = ([] : Table) :=
  ⟨rfl, by decide, by decide⟩

/-- Claim C4: evaluating the code.  A built factory carries no `decorators`
entry, neither among its own statics nor on its method table; the only
installed static is `defaults`. -/
theorem claim_C4_no_decorators_accessor :
    hasKey (DecoBuild []).statics "decorators" = false ∧
    hasKey (DecoBuild []).proto "decorators" = false ∧
    hasKey (DecoBuild []).statics "defaults" = true := by
  decide

/-- Claim C5: the classifier follows the claimed priority order.  An own
`constructor` entry yields that entry; an ordinary non-class function yields
itself when it has no prototype, and otherwise the value its
`prototype.constructor` resolves to; a class yields a wrapper that performs
structured instantiation with the call parameters and carries the
class-derived tag; any other value classifies as falsy and is silently
skipped by the composition, contributing no initializer and raising no
error. -/
theorem claim_C5_classifier_priority :
    ∀ (d : Decorator) (cs : List CtorVal) (v : CtorVal),
      (d.ownCtor = some v → classify d = v) ∧
      (d.ownCtor = none → d.isFunc = true → d.isCls = false → d.protoObj = none →
        classify d = CtorVal.fn false d.selfInit) ∧
      (∀ pr : Proto, d.ownCtor = none → d.isFunc = true → d.isCls = false →
        d.protoObj = some pr → classify d = d.protoCtor) ∧
      (d.ownCtor = none → d.isCls = true →
        classify d = CtorVal.fn true fun _o params => Ret.obj (d.construct params)) ∧
      (d.ownCtor = none → d.isFunc = false → d.isCls = false →
        classify d = CtorVal.falsy ∧ concatenateConstructors cs [d] = cs) := by
  intro d cs v
  refine ⟨?_, ?_, ?_, ?_, ?_⟩
  · intro h; simp [classify, h]
  · intro h1 h2 h3 h4; simp [classify, h1, h2, h3, h4]
  · intro pr h1 h2 h3 h4; simp [classify, h1, h2, h3, h4]
  · intro h1 h2; simp [classify, h1, h2]
  · intro h1 h2 h3
    have hc : classify d = CtorVal.falsy := by simp [classify, h1, h2, h3]
    exact ⟨hc, by simp [concatenateConstructors, hc, CtorVal.isTruthy]⟩

/-- Witness for claim C5: the first branch on a decorator carrying a truthy
own `constructor` entry, and the skip branch on a pure data-bag object
decorator, at concrete inputs. -/
theorem claim_C5_classifier_priority_witness :
    classify ownCtorDec = CtorVal.truthy (Prim.num 3) ∧
    concatenateConstructors [CtorVal.truthy (Prim.num 3)] [plainObjDec] =
      [CtorVal.truthy (Prim.num 3)] :=
  ⟨(claim_C5_classifier_priority ownCtorDec [] (CtorVal.truthy (Prim.num 3))).1 rfl,
   ((claim_C5_classifier_priority plainObjDec [CtorVal.truthy (Prim.num 3)]
      CtorVal.falsy).2.2.2.2 rfl rfl rfl).2⟩

/-- Claim C6: composition is append-only, order-preserving and never
deduplicating (the new constructors list is the old list with the classified
decorators appended in argument order), and composing one list and then
another gives the same factory state as composing their concatenation in one
call, on all three tables. -/
theorem claim_C6_composition_append :
    ∀ (f : Fac) (ds1 ds2 : List Decorator),
      concatenate (concatenate f ds1) ds2 = concatenate f (ds1 ++ ds2) ∧
      (concatenate f ds1).ctors = f.ctors ++ (ds1.map classify).filter CtorVal.isTruthy := by
  intro f ds1 ds2
  obtain ⟨cs, df, pr, st⟩ := f
  refine ⟨?_, rfl⟩
  simp [concatenate, concatenateConstructors, concatenateDefaults, concatenatePrototypes,
    List.map_append, List.filter_append, List.foldl_append, List.append_assoc]

theorem lookupT_eq_none_of_not_mem (ps : List JProp) (k : String)
    (h : k ∉ ps.map fun p => p.key) : lookupT ps k = none := by
  induction ps with
  | nil => rfl
  | cons p ps ih =>
    simp only [List.map_cons, List.mem_cons] at h
    push_neg at h
    have hb : (p.key == k) = false := by
      simp only [beq_eq_false_iff_ne, ne_eq]
      exact fun hc => h.1 hc.symm
    simp [lookupT, hb, ih h.2]

theorem lookupT_setOwn (t : Table) (p : JProp) (k : String) :
    lookupT (setOwn t p) k = if p.key == k then some p.val else lookupT t k := by
  induction t with
  | nil => rfl
  | cons q t ih =>
    by_cases hq : q.key = p.key
    · by_cases hpk : p.key = k
      · simp [setOwn, lookupT, hq, hpk]
      · simp [setOwn, lookupT, hq, hpk]
    · by_cases hpk : p.key = k
      · by_cases hqk : q.key = k
        · exact absurd (hqk.trans hpk.symm) hq
        · simp [setOwn, lookupT, hq, hpk, hqk, ih]
      · by_cases hqk : q.key = k
        · simp [setOwn, lookupT, hq, hpk, hqk, ih, Ne.symm hpk]
        · simp [setOwn, lookupT, hq, hpk, hqk, ih]

theorem lookupT_assignList (k : String) :
    ∀ (ps : List JProp) (t : Table), (ps.map fun p => p.key).Nodup →
      lookupT (assignList t ps) k =
        match lookupT ps k with
        | some v => some v
        | none => lookupT t k := by
  intro ps
  induction ps with
  | nil => intro t _; rfl
  | cons p ps ih =>
    intro t h
    simp only [List.map_cons, List.nodup_cons] at h
    have hstep : assignList t (p :: ps) = assignList (setOwn t p) ps := rfl
    rw [hstep, ih (setOwn t p) h.2]
    by_cases hpk : (p.key == k) = true
    · have hp : p.key = k := by simpa using hpk
      have hnone : lookupT ps k = none :=
        lookupT_eq_none_of_not_mem ps k (by rw [← hp]; exact h.1)
      simp [lookupT, hpk, hnone, lookupT_setOwn]
    · have hpk2 : (p.key == k) = false := by simpa using hpk
      cases hcase : lookupT ps k <;> simp [lookupT, hpk2, hcase, lookupT_setOwn]

theorem flatten_node (own : Table) (parent : Proto) :
    flatten (Proto.node own parent) = assignT (flatten parent) own := by
  simp [flatten, chain, copyT, List.reverse_cons, List.foldl_append, List.foldl_cons,
    List.foldl_nil]

theorem flatten_resolve :
    ∀ p : Proto, wfProto p → ∀ k : String, lookupT (flatten p) k = chainResolveClaim p k := by
  intro p
  induction p with
  | nil => intro _ k; rfl
  | node own parent ih =>
    intro h k
    obtain ⟨h1, h2⟩ := h
    rw [flatten_node]
    have hnodup : ((own.filter fun p => p.enum).map fun p => p.key).Nodup :=
      h1.sublist ((List.filter_sublist own).map fun p => p.key)
    have hT : assignT (flatten parent) own =
        assignList (flatten parent) (own.filter fun p => p.enum) := rfl
    rw [hT, lookupT_assignList k _ _ hnodup, ih h2 k]
    rfl

/-- Claim C7: the ancestry flattener merges from the most ancestral template
to the most specific (one flattening step assigns the more specific own table
over the already-flattened parent, overriding identically-named entries), and
looking a key up in the single merged table resolves exactly as walking the
live chain from the most specific level towards the most ancestral. -/
theorem claim_C7_ancestry_flattening :
    ∀ (own : Table) (parent : Proto) (p : Proto) (k : String),
      flatten (Proto.node own parent) = assignT (flatten parent) own ∧
      (wfProto p → lookupT (flatten p) k = chainResolveClaim p k) :=
  fun own parent p k => ⟨flatten_node own parent, fun h => flatten_resolve p h k⟩

/-- Witness for claim C7: a concrete two-level chain whose specific level
overrides `greet` of the ancestral level. -/
theorem claim_C7_ancestry_flattening_witness :
    wfProto protoEx ∧ lookupT (flatten protoEx) "greet" = chainResolveClaim protoEx "greet" := by
  have hwf : wfProto protoEx := by
    simp only [protoEx, wfProto]
    exact ⟨by decide, by decide, trivial⟩
  exact ⟨hwf, (claim_C7_ancestry_flattening [] Proto.nil protoEx "greet").2 hwf⟩

/-- Claim C8, counterexample: a call with an explicit receiver that does not
hold the factory runs the chain against the receiver but returns the final
chain value, not the decorated receiver, whenever an initializer overrides:
with one initializer returning a fresh object, the call result differs from
the receiver with the method table applied. -/
theorem claim_C8_counterexample :
    holdsFactory receiverEx 0 = false ∧
    factoryCall 0 members [freshInit] (some receiverEx) [] ≠ assignObj receiverEx members :=
  ⟨rfl, by decide⟩

/-- Claim C8, amended: a plain call (no receiver) constructs a brand-new
instance; a call whose receiver holds the factory under some own key also
constructs a brand-new instance; any other receiver gets the method table
assigned onto it and the initializer chain runs starting from it, the call
returning the final chain value — which is the decorated receiver whenever
every initializer returns `undefined`. -/
theorem claim_C8_invocation_shapes :
    ∀ (facId : Nat) (proto : Table) (ctors : List Initializer) (r : JObj) (params : List JVal),
      factoryCall facId proto ctors none params = factoryConstructor proto ctors params ⟨[]⟩ ∧
      (holdsFactory r facId = true →
        factoryCall facId proto ctors (some r) params =
          factoryConstructor proto ctors params ⟨[]⟩) ∧
      (holdsFactory r facId = false →
        factoryCall facId proto ctors (some r) params =
          factoryConstructor proto ctors params (assignObj r proto)) ∧
      ((∀ f, f ∈ ctors → ∀ o, f o params = Ret.undef) → holdsFactory r facId = false →
        factoryCall facId proto ctors (some r) params = assignObj r proto) := by
  intro facId proto ctors r params
  refine ⟨rfl, ?_, ?_, ?_⟩
  · intro h; simp [factoryCall, h]
  · intro h; simp [factoryCall, h]
  · intro hall h
    have h3 : factoryCall facId proto ctors (some r) params =
        factoryConstructor proto ctors params (assignObj r proto) := by
      simp [factoryCall, h]
    rw [h3]
    exact factoryConstructor_undef_id proto params ctors hall (assignObj r proto)

/-- Witness for claim C8: a receiver holding the factory under an own key
constructs fresh, and a receiver without it, under an all-`undefined` chain,
comes back decorated. -/
theorem claim_C8_invocation_shapes_witness :
    factoryCall 0 members [undefInit] (some receiverHold) [] =
      factoryConstructor members [undefInit] [] ⟨[]⟩ ∧
    factoryCall 0 members [undefInit] (some receiverEx) [] = assignObj receiverEx members := by
  refine ⟨(claim_C8_invocation_shapes 0 members [undefInit] receiverHold []).2.1 (by decide), ?_⟩
  refine (claim_C8_invocation_shapes 0 members [undefInit] receiverEx []).2.2.2 ?_ (by decide)
  intro f hf o
  rw [List.mem_singleton] at hf
  subst hf
  rfl

/-- Claim C9: evaluating the code.  On a freshly built factory, the `defaults`
member produces the merged mapping as a fresh value, but the private defaults
table of the factory stays empty, so a subsequent read returns the empty
table, not the previously merged mapping. -/
theorem claim_C9_defaults_not_merged :
    memberDefaults (DecoBuild []) [genreDefaults] = genreDefaults ∧
    (DecoBuild []).defaults = ([] : Table) ∧
    memberDefaults (DecoBuild []) [] = ([] : Table) := by
  decide

/-- Claim C10: the `constructor` and `defaults` members installed by the
factory builder are defined non-enumerable, assigning the freshly initialized
method table onto any object adds nothing to it, and a factory built from
zero decorators returns, on a plain call, an instance with no own properties
at all — in particular none enumerable. -/
theorem claim_C10_nonenumerable_members :
    (DecoBuild []).proto = members ∧
    (members.map fun p => p.key) = ["constructor", "defaults"] ∧
    (members.all fun p => !p.enum) = true ∧
    (∀ o : JObj, assignObj o members = o) ∧
    (DecoBuild []).ctors = ([] : List CtorVal) ∧
    (∀ params : List JVal,
      factoryCall 0 (DecoBuild []).proto ([] : List Initializer) none params = ⟨[]⟩) ∧
    (∀ params : List JVal,
      ((factoryCall 0 (DecoBuild []).proto ([] : List Initializer) none params).props.filter
        fun p => p.enum) = []) :=
  ⟨rfl, rfl, rfl, fun _ => rfl, rfl, fun _ => rfl, fun _ => rfl⟩
